import Mathlib

/-!
Verification of the client-side Conversation Session Manager of the
XrozenAI chat page (`src/pages/XrozenAI.tsx`).

The page's React component state is embedded as an explicit `SessionState`
record, and each handler (`sendMessage`, `loadConversations`, `loadMessages`,
`deleteConversation`) as a pure state-transition function.  Asynchronous
backend calls (identity lookup, table inserts/deletes/selects, the remote
assistant edge function) are modelled by oracle parameters giving each call's
outcome, since the backend itself is not part of this repository; per the
spec the backend is a consistent store whose insert echoes the inserted row
with a server-generated identifier.  Side effects visible to the user
(toasts) or to the console (logged errors) are returned explicitly.
-/

/-- Message role, from the `Message` interface: `'user' | 'assistant'`. -/
inductive Role where
  | user
  | assistant
deriving DecidableEq, Repr

/-- A chat message, from the `Message` interface in `XrozenAI.tsx`:
`{ id: string; role: 'user' | 'assistant'; content: string; created_at: string }`. -/
structure Message where
  id : String
  role : Role
  content : String
  created_at : String
deriving DecidableEq, Repr

/-- A conversation, from the `Conversation` interface in `XrozenAI.tsx`:
`{ id: string; title: string; updated_at: string }`. -/
structure Conversation where
  id : String
  title : String
  updated_at : String
deriving DecidableEq, Repr

/-- The component's mutable state (`useState` hooks of `XrozenAI`):
`conversations`, `selectedConversation`, `messages`, `input`, `loading`
(the pending-send flag) and `loadingConversations`. -/
structure SessionState where
  conversations : List Conversation
  selectedConversation : Option String
  messages : List Message
  input : String
  loading : Bool
  loadingConversations : Bool
deriving DecidableEq, Repr

/-- A toast notification (`useToast`): title and description. -/
structure Toast where
  title : String
  description : String
deriving DecidableEq, Repr

/-- Outcome of the lazy conversation insert
(`supabase.from('ai_conversations').insert({user_id, title}).select().single()`).
On success the backend echoes the inserted row: it generates `id` and
`updated_at`, and stores the `title` exactly as sent (spec section 6 treats the
backend as a consistent, immediately-readable store). -/
inductive ConvInsert where
  | err (msg : String)
  | ok (id : String) (updated_at : String)
deriving DecidableEq, Repr

/-- Oracle for the asynchronous calls made during one `sendMessage` run, in
program order: `Date.now()` for the temp id (`now0`), `toISOString` for the
optimistic message (`ts0`), `supabase.auth.getUser()` (`authUser`), the lazy
conversation insert (`convInsert`), the `xrozen-ai` function invocation
(`remote`, success carries `data.response`), then `Date.now()` for the
permanent user id (`now1`) and the assistant id (`now2`) and `toISOString`
for the assistant message (`ts1`). -/
structure SendEnv where
  now0 : Nat
  ts0 : String
  authUser : Option String
  convInsert : ConvInsert
  remote : Except String String
  now1 : Nat
  now2 : Nat
  ts1 : String
deriving Repr

/-- Result of a `sendMessage` invocation, following the spec's discriminated
transitions: rejected at step 1, committed, or rolled back (carrying the error
toast that was raised). -/
inductive SendOutcome where
  | rejected
  | committed
  | rolledBack (t : Toast)
deriving DecidableEq, Repr

/-- Whether a character is removed by JavaScript `String.prototype.trim`:
ECMAScript WhiteSpace or LineTerminator. -/
def isJsWhitespace (c : Char) : Bool :=
  c == ' ' || c == '\t' || c == '\n' || c == '\r' || c == '\x0b' || c == '\x0c' ||
  c == '\u00a0' || c == '\ufeff' || c == '\u1680' ||
  ('\u2000' ≤ c && c ≤ '\u200a') ||
  c == '\u202f' || c == '\u205f' || c == '\u2028' || c == '\u2029' || c == '\u3000'

/-- JavaScript `String.prototype.trim`: strip leading and trailing
whitespace/line terminators. -/
def jsTrim (s : String) : String :=
  String.mk (((s.data.dropWhile isJsWhitespace).reverse.dropWhile isJsWhitespace).reverse)

/-- JavaScript `s.slice(0, n)` (for code points, which coincides with UTF-16
units on the BMP): the first `n` characters. -/
def jsSlice (s : String) (n : Nat) : String :=
  String.mk (s.data.take n)

/-- `error.message || "Failed to send message"` in the catch branch. -/
def errText (m : String) : String :=
  if m = "" then "Failed to send message" else m

/-- The catch branch's `setMessages(prev => prev.filter(m => m.id !== tempId))`. -/
def rollbackMessages (msgs : List Message) (tempId : String) : List Message :=
  msgs.filter (fun m => m.id != tempId)

/-- The marker token of the sentinel-delimited action payload. -/
def actionMarker : List Char := "__ACTION_DATA__".data

/-- Whether a character is matched by `.` in a JavaScript regex without the
`s` flag: any character except a line terminator. -/
def isDotChar (c : Char) : Bool :=
  !(c == '\n' || c == '\r' || c == '\u2028' || c == '\u2029')

/-- Lazy search for the closing marker: the least `k ≥ 1` such that the first
`k` characters are all `.`-matchable and the remainder starts with the marker
(the `(.+?)__ACTION_DATA__` part of the regex). -/
def findCloseLen : List Char → Option Nat
  | [] => none
  | c :: rest =>
    if isDotChar c then
      if actionMarker.isPrefixOf rest then some 1
      else
        match findCloseLen rest with
        | some k => some (k + 1)
        | none => none
    else none

/-- Length of the regex match `__ACTION_DATA__.+?__ACTION_DATA__` anchored at
the head of `l`, if any. -/
def matchLenAt (l : List Char) : Option Nat :=
  if actionMarker.isPrefixOf l then
    match findCloseLen (l.drop actionMarker.length) with
    | some k => some (actionMarker.length + k + actionMarker.length)
    | none => none
  else none

/-- Remove the first (leftmost, lazily shortest) match of
`__ACTION_DATA__.+?__ACTION_DATA__` from the character list; `none` when the
regex does not match (the semantics of `String.prototype.replace` with a
non-global regex and empty replacement). -/
def removeFirstMatch : List Char → Option (List Char)
  | [] => none
  | c :: rest =>
    match matchLenAt (c :: rest) with
    | some n => some ((c :: rest).drop n)
    | none =>
      match removeFirstMatch rest with
      | some l => some (c :: l)
      | none => none

/-- Lines 233-237 of `XrozenAI.tsx`: if the response matches
`/__ACTION_DATA__(.+?)__ACTION_DATA__/`, replace the first match by the empty
string and trim; otherwise leave the response untouched. -/
def stripActionData (s : String) : String :=
  match removeFirstMatch s.data with
  | some l => jsTrim (String.mk l)
  | none => s

/-- Lines 196-217 of `sendMessage`: resolve the conversation to use.  If one
is selected use it; otherwise look up the user (failing with
`'User not authenticated'` when absent) and insert a new conversation titled
`userMessage.slice(0, 50)`, prepending it to the list and selecting it. -/
def resolveConversation (st : SessionState) (userMessage : String) (env : SendEnv) :
    Except String (String × SessionState) :=
  match st.selectedConversation with
  | some cid => .ok (cid, st)
  | none =>
    match env.authUser with
    | none => .error "User not authenticated"
    | some _ =>
      match env.convInsert with
      | .err m => .error m
      | .ok newId updatedAt =>
        let newConv : Conversation :=
          { id := newId, title := jsSlice userMessage 50, updated_at := updatedAt }
        .ok (newId, { st with selectedConversation := some newId,
                              conversations := newConv :: st.conversations })

/-- `const tempId = `temp-${Date.now()}``. -/
def tempIdOf (env : SendEnv) : String := "temp-" ++ toString env.now0

/-- The optimistic user message appended at lines 188-193: temp id, role
`user`, the trimmed input as content, current local timestamp. -/
def optimisticMessage (st : SessionState) (env : SendEnv) : Message :=
  { id := tempIdOf env, role := .user, content := jsTrim st.input,
    created_at := env.ts0 }

/-- The state after the synchronous prefix of `sendMessage` (lines 184-193):
input cleared, pending flag set, optimistic message appended. -/
def stOptimistic (st : SessionState) (env : SendEnv) : SessionState :=
  { st with input := "", loading := true,
            messages := st.messages ++ [optimisticMessage st env] }

/-- Lines 178-264 of `XrozenAI.tsx` (`sendMessage`): reject when the trimmed
input is empty or a send is pending; otherwise clear the input, set the
pending flag, append the optimistic user message with id `temp-<Date.now()>`,
resolve (possibly lazily creating) the conversation, invoke the remote
assistant, and either commit (replace the temp id with `user-<Date.now()>`
and append the assistant message with the stripped response) or roll back
(filter out the temp message and raise an error toast).  The `finally` clause
clears the pending flag on every path that set it. -/
def sendMessage (st : SessionState) (env : SendEnv) : SessionState × SendOutcome :=
  if jsTrim st.input = "" ∨ st.loading = true then
    (st, .rejected)
  else
    match resolveConversation (stOptimistic st env) (jsTrim st.input) env with
    | .error m =>
      ({ stOptimistic st env with
         messages := rollbackMessages (stOptimistic st env).messages (tempIdOf env),
         loading := false },
       .rolledBack { title := "Error", description := errText m })
    | .ok (_, st2) =>
      match env.remote with
      | .error m =>
        ({ st2 with messages := rollbackMessages st2.messages (tempIdOf env),
                    loading := false },
         .rolledBack { title := "Error", description := errText m })
      | .ok resp =>
        ({ st2 with
           messages :=
             (st2.messages.map (fun m =>
               if m.id = tempIdOf env then { m with id := "user-" ++ toString env.now1 }
               else m))
             ++ [{ id := "ai-" ++ toString env.now2, role := .assistant,
                   content := stripActionData resp, created_at := env.ts1 }],
           loading := false },
         .committed)

/-- Console/toast effects of a load or delete operation. -/
structure LoadEffects where
  errorLogged : Bool
  toast : Option Toast
deriving DecidableEq, Repr

/-- Lines 90-104 of `XrozenAI.tsx` (`loadMessages`): on success replace the
in-memory message list with the fetched rows (ordered ascending by
`created_at` by the backend); on failure log the error and leave the list
unchanged. -/
def loadMessages (st : SessionState) (fetch : Except String (List Message)) :
    SessionState × LoadEffects :=
  match fetch with
  | .ok data => ({ st with messages := data }, { errorLogged := false, toast := none })
  | .error _ => (st, { errorLogged := true, toast := none })

/-- Oracle for the asynchronous calls made during one `loadConversations`
run: `supabase.auth.getUser()`, the conversations select (ordered by
`updated_at` descending by the backend, so the head is the most recently
updated), and the messages select used by the nested `loadMessages` call when
a conversation is auto-selected. -/
structure LoadConvEnv where
  authUser : Option String
  fetch : Except String (List Conversation)
  msgsFetch : Except String (List Message)
deriving Repr

/-- Lines 62-87 of `XrozenAI.tsx` (`loadConversations`): return silently when
no user; on fetch error log it (no toast) and leave the list as it was; on
success store the fetched list and, when it is non-empty and no conversation
is selected, select its head and load that conversation's messages.  The
`finally` clause clears `loadingConversations` on every path. -/
def loadConversations (st : SessionState) (env : LoadConvEnv) :
    SessionState × LoadEffects :=
  match env.authUser with
  | none => ({ st with loadingConversations := false },
             { errorLogged := false, toast := none })
  | some _ =>
    match env.fetch with
    | .error _ => ({ st with loadingConversations := false },
                   { errorLogged := true, toast := none })
    | .ok data =>
      let st1 := { st with conversations := data }
      match data, st1.selectedConversation with
      | c :: _, none =>
        let st2 := { st1 with selectedConversation := some c.id }
        let (st3, eff) := loadMessages st2 env.msgsFetch
        ({ st3 with loadingConversations := false }, eff)
      | _, _ => ({ st1 with loadingConversations := false },
                 { errorLogged := false, toast := none })

/-- Lines 138-175 of `XrozenAI.tsx` (`deleteConversation`): the result of the
messages delete is discarded by the code, so only the conversation-record
delete outcome (`deleteConv`) matters.  On its failure log and raise an error
toast, leaving local state untouched; on success remove the conversation from
the list, and when it was the selected one also clear the selection and empty
the message list, then raise a success toast. -/
def deleteConversation (st : SessionState) (conversationId : String)
    (deleteConv : Except String Unit) : SessionState × LoadEffects :=
  match deleteConv with
  | .error _ =>
    (st, { errorLogged := true,
           toast := some { title := "Error",
                           description := "Failed to delete conversation" } })
  | .ok _ =>
    let st1 := { st with conversations :=
                   st.conversations.filter (fun c => c.id != conversationId) }
    let st2 :=
      if st1.selectedConversation = some conversationId then
        { st1 with selectedConversation := none, messages := [] }
      else st1
    (st2, { errorLogged := false,
            toast := some { title := "Success",
                            description := "Conversation deleted successfully" } })

/-! Concrete example states and environments used by witnesses,
counterexamples and the concrete scenario claims. -/

/-- An idle session with one conversation selected and input `"hello"`. -/
def stIdle : SessionState :=
  { conversations := [{ id := "c1", title := "T", updated_at := "u1" }],
    selectedConversation := some "c1",
    messages := [{ id := "m1", role := .user, content := "earlier",
                   created_at := "t-1" }],
    input := "hello", loading := false, loadingConversations := false }

/-- The same session while a send is pending (pending flag set). -/
def stPending : SessionState :=
  { stIdle with loading := true }

/-- A session with no conversation selected and empty message list. -/
def stNoConv : SessionState :=
  { conversations := [], selectedConversation := none, messages := [],
    input := "hello world", loading := false, loadingConversations := false }

/-- A benign send environment: remote call succeeds with a plain response. -/
def envOk : SendEnv :=
  { now0 := 1, ts0 := "2025-01-01T00:00:00Z", authUser := some "u1",
    convInsert := .ok "c2" "2025-01-01T00:00:01Z",
    remote := .ok "Hi there", now1 := 2, now2 := 3,
    ts1 := "2025-01-01T00:00:02Z" }

/-- A send environment whose remote call fails. -/
def envFail : SendEnv :=
  { envOk with remote := .error "boom" }

/-- A send environment whose remote call succeeds with the spec's
sentinel-delimited example response. -/
def envAction : SendEnv :=
  { envOk with remote := Except.ok "Sure!__ACTION_DATA__\x7b\"type\":\"create_project\"\x7d__ACTION_DATA__ Done." }

/-- A load environment whose conversations fetch fails with a transport
error. -/
def envLoadFail : LoadConvEnv :=
  { authUser := some "u1", fetch := .error "network down", msgsFetch := .ok [] }

/-- A load environment returning two conversations (head most recently
updated) and one message for the head conversation. -/
def envLoadOk : LoadConvEnv :=
  { authUser := some "u1",
    fetch := .ok [{ id := "A", title := "a", updated_at := "10:02" },
                  { id := "B", title := "b", updated_at := "10:00" }],
    msgsFetch := .ok [{ id := "m1", role := .user, content := "hi",
                        created_at := "t1" }] }

/-! Helper lemmas shared by the claim theorems. -/

/-- A successful `resolveConversation` never touches the message list, the
input field or the pending flag. -/
theorem resolveConversation_ok_frame {st : SessionState} {um : String}
    {env : SendEnv} {c : String} {st2 : SessionState}
    (h : resolveConversation st um env = .ok (c, st2)) :
    st2.messages = st.messages ∧ st2.input = st.input ∧
      st2.loading = st.loading := by
  unfold resolveConversation at h
  split at h
  · obtain ⟨h1, h2⟩ := by simpa using h
    subst h2
    exact ⟨rfl, rfl, rfl⟩
  · split at h
    · simp at h
    · split at h
      · simp at h
      · obtain ⟨h1, h2⟩ := by simpa using h
        subst h2
        exact ⟨rfl, rfl, rfl⟩

/-- Filtering out the temp id from `msgs ++ [optimistic]` recovers `msgs`
when no message of `msgs` carries the temp id. -/
theorem rollbackMessages_append_temp (msgs : List Message) (tempId : String)
    (m0 : Message) (h0 : m0.id = tempId)
    (hfresh : ∀ m ∈ msgs, m.id ≠ tempId) :
    rollbackMessages (msgs ++ [m0]) tempId = msgs := by
  unfold rollbackMessages
  rw [List.filter_append]
  have h1 : List.filter (fun m => m.id != tempId) [m0] = [] := by
    simp [h0]
  have h2 : List.filter (fun m => m.id != tempId) msgs = msgs :=
    List.filter_eq_self.mpr (fun m hm => by simpa using hfresh m hm)
  rw [h1, h2, List.append_nil]

/-- Replacing the temp id leaves a list untouched when no element carries the
temp id. -/
theorem mapReplaceTemp_of_fresh (msgs : List Message) (tempId newId : String)
    (hfresh : ∀ m ∈ msgs, m.id ≠ tempId) :
    msgs.map (fun m => if m.id = tempId then { m with id := newId } else m)
      = msgs := by
  induction msgs with
  | nil => rfl
  | cons a l ih =>
    have ha : a.id ≠ tempId := hfresh a (List.mem_cons_self a l)
    simp only [List.map_cons, if_neg ha]
    rw [ih (fun m hm => hfresh m (List.mem_cons_of_mem a hm))]

/-- A `user-` identifier never carries the `temp-` prefix. -/
theorem temp_not_prefix_user (t : String) :
    ("temp-".data.isPrefixOf ("user-" ++ t).data) = false := by
  rw [String.data_append]; rfl

/-! Claim theorems. -/

/-- C3: `sendMessage` with empty or whitespace-only input, or while a send is
already pending, is the identity on the session state — message list,
selected conversation and pending-send flag all unchanged — and adds no
optimistic message, so two sends in immediate succession leave exactly the
one optimistic entry added by the first. -/
theorem sendMessage_noop_empty_or_pending (st : SessionState) (env : SendEnv)
    (h : jsTrim st.input = "" ∨ st.loading = true) :
    sendMessage st env = (st, SendOutcome.rejected) := by
  unfold sendMessage
  exact if_pos h

/-- Witness for C3 at a concrete pending state. -/
theorem sendMessage_noop_empty_or_pending_witness :
    stPending.loading = true ∧
      sendMessage stPending envOk = (stPending, SendOutcome.rejected) :=
  ⟨rfl, sendMessage_noop_empty_or_pending stPending envOk (Or.inr rfl)⟩

/-- C4 counterexample: an invocation rejected because a send is already
pending returns with the pending-send flag still set, so the flag is not
cleared in every case. -/
theorem sendMessage_pending_reject_keeps_flag :
    ¬ ((sendMessage stPending envOk).1.loading = false) := by decide

/-- C4 (amended): for every invocation entered with no send pending, the
pending-send flag is false when `sendMessage` returns — after success,
failure, or empty-input rejection; only a rejection caused by an
already-pending send returns with the (in-flight send's) flag still set. -/
theorem sendMessage_clears_pending_flag (st : SessionState) (env : SendEnv)
    (h : st.loading = false) :
    (sendMessage st env).1.loading = false := by
  unfold sendMessage
  by_cases hc : jsTrim st.input = "" ∨ st.loading = true
  · rw [if_pos hc]; exact h
  · rw [if_neg hc]
    split
    · rfl
    · split <;> rfl

/-- Witness for the amended C4 at a concrete idle state. -/
theorem sendMessage_clears_pending_flag_witness :
    stIdle.loading = false ∧ (sendMessage stIdle envOk).1.loading = false :=
  ⟨rfl, sendMessage_clears_pending_flag stIdle envOk rfl⟩

/-- C5: for the response text
`"Sure!__ACTION_DATA__{\"type\":\"create_project\"}__ACTION_DATA__ Done."`
the assistant message appended by `sendMessage` displays exactly
`"Sure! Done."` — the sentinel-delimited block and both marker tokens are
stripped and the payload is not rendered. -/
theorem sendMessage_strips_sentinel_block :
    ((sendMessage stIdle envAction).1.messages.getLast?).map Message.content
        = some "Sure! Done."
    ∧ ((sendMessage stIdle envAction).1.messages.getLast?).map Message.role
        = some Role.assistant := by
  constructor
  · decide
  · decide

/-- C7: a successful `deleteConversation` removes the conversation from the
list; if it was the selected one the selection is cleared and the in-memory
message list emptied, otherwise selection and messages are left unchanged. -/
theorem deleteConversation_frame (st : SessionState) (cid : String) :
    ((deleteConversation st cid (Except.ok ())).1.conversations
        = st.conversations.filter (fun c => c.id != cid))
    ∧ ((deleteConversation st cid (Except.ok ())).1.selectedConversation
        = if st.selectedConversation = some cid then none
          else st.selectedConversation)
    ∧ ((deleteConversation st cid (Except.ok ())).1.messages
        = if st.selectedConversation = some cid then [] else st.messages) := by
  unfold deleteConversation
  by_cases h : st.selectedConversation = some cid <;> simp [h]

/-- C8: when the conversations read fails with a transport error,
`loadConversations` fails silently to an empty list: the error is logged, no
user-visible toast is raised, and the conversation list shown — empty at the
mount-time state from which the code calls this operation — stays empty. -/
theorem loadConversations_transport_error_silent (st : SessionState)
    (env : LoadConvEnv) (u e : String)
    (hu : env.authUser = some u) (hf : env.fetch = Except.error e)
    (h0 : st.conversations = []) :
    (loadConversations st env).1.conversations = []
    ∧ (loadConversations st env).2.toast = none
    ∧ (loadConversations st env).2.errorLogged = true := by
  simp [loadConversations, hu, hf, h0]

/-- Witness for C8 at the initial empty state with a failing fetch. -/
theorem loadConversations_transport_error_silent_witness :
    envLoadFail.authUser = some "u1"
    ∧ envLoadFail.fetch = Except.error "network down"
    ∧ stNoConv.conversations = []
    ∧ ((loadConversations stNoConv envLoadFail).1.conversations = []
       ∧ (loadConversations stNoConv envLoadFail).2.toast = none
       ∧ (loadConversations stNoConv envLoadFail).2.errorLogged = true) :=
  ⟨rfl, rfl, rfl,
    loadConversations_transport_error_silent stNoConv envLoadFail "u1"
      "network down" rfl rfl rfl⟩

/-- C9: when the conversations read succeeds with a non-empty list and no
conversation is selected, the head of the returned list (the most recently
updated conversation) is selected automatically and its messages are loaded
into the in-memory list. -/
theorem loadConversations_auto_selects_head (st : SessionState)
    (env : LoadConvEnv) (u : String) (c : Conversation)
    (rest : List Conversation) (ms : List Message)
    (hu : env.authUser = some u) (hf : env.fetch = Except.ok (c :: rest))
    (hsel : st.selectedConversation = none)
    (hm : env.msgsFetch = Except.ok ms) :
    (loadConversations st env).1.conversations = c :: rest
    ∧ (loadConversations st env).1.selectedConversation = some c.id
    ∧ (loadConversations st env).1.messages = ms := by
  simp [loadConversations, loadMessages, hu, hf, hsel, hm]

/-- Witness for C9 at a concrete two-conversation fetch. -/
theorem loadConversations_auto_selects_head_witness :
    stNoConv.selectedConversation = none
    ∧ ((loadConversations stNoConv envLoadOk).1.conversations
          = [{ id := "A", title := "a", updated_at := "10:02" },
             { id := "B", title := "b", updated_at := "10:00" }]
       ∧ (loadConversations stNoConv envLoadOk).1.selectedConversation
          = some (Conversation.mk "A" "a" "10:02").id
       ∧ (loadConversations stNoConv envLoadOk).1.messages
          = [{ id := "m1", role := .user, content := "hi",
               created_at := "t1" }]) :=
  ⟨rfl,
    loadConversations_auto_selects_head stNoConv envLoadOk "u1"
      (Conversation.mk "A" "a" "10:02")
      [{ id := "B", title := "b", updated_at := "10:00" }]
      [{ id := "m1", role := .user, content := "hi", created_at := "t1" }]
      rfl rfl rfl rfl⟩

/-- C1: whenever the remote assistant call succeeds and `sendMessage`
commits, the resulting message list is exactly the pre-send list with the
optimistic message retained — same role and content, its temporary id
`temp-<now>` replaced by the permanent `user-<now>` id, which never carries
the `temp-` prefix — followed by exactly one appended assistant message; no
other message is added, removed or changed. -/
theorem sendMessage_success_commits (st : SessionState) (env : SendEnv)
    (resp : String) (hresp : env.remote = Except.ok resp)
    (hfresh : ∀ m ∈ st.messages, m.id ≠ tempIdOf env) :
    ∀ st', sendMessage st env = (st', SendOutcome.committed) →
      st'.messages = st.messages
        ++ [{ id := "user-" ++ toString env.now1, role := Role.user,
              content := jsTrim st.input, created_at := env.ts0 },
            { id := "ai-" ++ toString env.now2, role := Role.assistant,
              content := stripActionData resp, created_at := env.ts1 }]
      ∧ ("temp-".data.isPrefixOf ("user-" ++ toString env.now1).data)
          = false := by
  intro st' h
  unfold sendMessage at h
  by_cases hc : jsTrim st.input = "" ∨ st.loading = true
  · rw [if_pos hc] at h
    injection h with h1 h2
    simp at h2
  · rw [if_neg hc] at h
    rcases hr : resolveConversation (stOptimistic st env) (jsTrim st.input) env
      with m | ⟨cc, st2⟩
    · rw [hr] at h
      injection h with h1 h2
      simp at h2
    · rw [hr, hresp] at h
      injection h with h1 h2
      obtain ⟨hmsg, hin, hld⟩ := resolveConversation_ok_frame hr
      subst h1
      refine ⟨?_, temp_not_prefix_user (toString env.now1)⟩
      show (st2.messages.map _) ++ _ = _
      rw [hmsg]
      show ((st.messages ++ [optimisticMessage st env]).map _) ++ _ = _
      rw [List.map_append,
          mapReplaceTemp_of_fresh st.messages (tempIdOf env)
            ("user-" ++ toString env.now1) hfresh]
      simp [optimisticMessage]

/-- Witness for C1 at a concrete idle state with a succeeding remote call. -/
theorem sendMessage_success_commits_witness :
    envOk.remote = Except.ok "Hi there"
    ∧ (∀ m ∈ stIdle.messages, m.id ≠ tempIdOf envOk)
    ∧ ((sendMessage stIdle envOk).1.messages = stIdle.messages
        ++ [{ id := "user-" ++ toString envOk.now1, role := Role.user,
              content := jsTrim stIdle.input, created_at := envOk.ts0 },
            { id := "ai-" ++ toString envOk.now2, role := Role.assistant,
              content := stripActionData "Hi there", created_at := envOk.ts1 }]
       ∧ ("temp-".data.isPrefixOf ("user-" ++ toString envOk.now1).data)
           = false) :=
  ⟨rfl, by decide,
    sendMessage_success_commits stIdle envOk "Hi there" rfl (by decide)
      ((sendMessage stIdle envOk).1) (by decide)⟩

/-- C2: whenever `sendMessage` rolls back — the remote assistant call or the
lazy conversation creation preceding it failed — the in-memory message list
returns exactly to its pre-send state (the optimistic user message is
removed, and no assistant or error message is left in the list) and an error
toast is surfaced. -/
theorem sendMessage_failure_rolls_back (st : SessionState) (env : SendEnv)
    (hfresh : ∀ m ∈ st.messages, m.id ≠ tempIdOf env) :
    ∀ st' t, sendMessage st env = (st', SendOutcome.rolledBack t) →
      st'.messages = st.messages ∧ t.title = "Error" := by
  intro st' t h
  unfold sendMessage at h
  by_cases hc : jsTrim st.input = "" ∨ st.loading = true
  · rw [if_pos hc] at h
    injection h with h1 h2
    simp at h2
  · rw [if_neg hc] at h
    rcases hr : resolveConversation (stOptimistic st env) (jsTrim st.input) env
      with m | ⟨cc, st2⟩
    · rw [hr] at h
      injection h with h1 h2
      subst h1
      injection h2 with h3
      refine ⟨?_, by rw [← h3]⟩
      show rollbackMessages (stOptimistic st env).messages (tempIdOf env)
          = st.messages
      exact rollbackMessages_append_temp st.messages (tempIdOf env)
        (optimisticMessage st env) rfl hfresh
    · rcases hrem : env.remote with m | resp
      · rw [hr, hrem] at h
        injection h with h1 h2
        subst h1
        injection h2 with h3
        obtain ⟨hmsg, hin, hld⟩ := resolveConversation_ok_frame hr
        refine ⟨?_, by rw [← h3]⟩
        show rollbackMessages st2.messages (tempIdOf env) = st.messages
        rw [hmsg]
        exact rollbackMessages_append_temp st.messages (tempIdOf env)
          (optimisticMessage st env) rfl hfresh
      · rw [hr, hrem] at h
        injection h with h1 h2
        simp at h2

/-- Witness for C2 at a concrete idle state with a failing remote call. -/
theorem sendMessage_failure_rolls_back_witness :
    (∀ m ∈ stIdle.messages, m.id ≠ tempIdOf envFail)
    ∧ ((sendMessage stIdle envFail).1.messages = stIdle.messages
       ∧ (Toast.mk "Error" "boom").title = "Error") :=
  ⟨by decide,
    sendMessage_failure_rolls_back stIdle envFail (by decide)
      ((sendMessage stIdle envFail).1) (Toast.mk "Error" "boom") (by decide)⟩

/-- C6: with no conversation selected and non-empty (after trimming) input,
`sendMessage` creates a conversation titled with the first 50 characters of
the text being sent, inserts it at the head of the conversation list, and
makes it the selected conversation before the remote call resolves — so this
holds in the final state whatever the remote outcome. -/
theorem sendMessage_lazy_creates_conversation (st : SessionState)
    (env : SendEnv) (u newId upd : String)
    (hsel : st.selectedConversation = none)
    (hne : ¬ jsTrim st.input = "") (hnl : st.loading = false)
    (hu : env.authUser = some u)
    (hins : env.convInsert = ConvInsert.ok newId upd) :
    (sendMessage st env).1.conversations
      = { id := newId, title := jsSlice (jsTrim st.input) 50,
          updated_at := upd } :: st.conversations
    ∧ (sendMessage st env).1.selectedConversation = some newId := by
  have hc : ¬ (jsTrim st.input = "" ∨ st.loading = true) := by
    rintro (h | h)
    · exact hne h
    · rw [hnl] at h
      exact Bool.false_ne_true h
  unfold sendMessage
  rw [if_neg hc]
  have hr : resolveConversation (stOptimistic st env) (jsTrim st.input) env
      = Except.ok (newId,
          { stOptimistic st env with
            selectedConversation := some newId,
            conversations :=
              { id := newId, title := jsSlice (jsTrim st.input) 50,
                updated_at := upd } :: (stOptimistic st env).conversations }) := by
    unfold resolveConversation
    simp [stOptimistic, hsel, hu, hins]
  rw [hr]
  rcases hrem : env.remote with m | resp <;> simp [hrem, stOptimistic]

/-- Witness for C6 at a concrete state with no selected conversation. -/
theorem sendMessage_lazy_creates_conversation_witness :
    stNoConv.selectedConversation = none
    ∧ ¬ jsTrim stNoConv.input = ""
    ∧ ((sendMessage stNoConv envOk).1.conversations
          = { id := "c2", title := jsSlice (jsTrim stNoConv.input) 50,
              updated_at := "2025-01-01T00:00:01Z" } :: stNoConv.conversations
       ∧ (sendMessage stNoConv envOk).1.selectedConversation = some "c2") :=
  ⟨rfl, by decide,
    sendMessage_lazy_creates_conversation stNoConv envOk "u1" "c2"
      "2025-01-01T00:00:01Z" rfl (by decide) rfl rfl rfl⟩

/-- The marker starts with an underscore, so it is never a prefix of a list
headed by a different character. -/
theorem marker_not_prefix_of_cons {c : Char} (l : List Char) (hc : c ≠ '_') :
    actionMarker.isPrefixOf (c :: l) = false := by
  have hm : actionMarker = '_' :: "_ACTION_DATA__".data := rfl
  have hb : ('_' == c) = false := beq_eq_false_iff_ne.mpr (Ne.symm hc)
  rw [hm]
  simp [List.isPrefixOf, hb]

/-- The marker is a prefix of itself followed by anything. -/
theorem marker_prefix_append (rest : List Char) :
    actionMarker.isPrefixOf (actionMarker ++ rest) = true := by
  simp [List.isPrefixOf_iff_prefix]

/-- No regex match starts at a non-underscore character. -/
theorem matchLenAt_cons_ne {c : Char} (l : List Char) (hc : c ≠ '_') :
    matchLenAt (c :: l) = none := by
  simp [matchLenAt, marker_not_prefix_of_cons l hc]

/-- The lazy content scan over a block of `.`-matchable, non-underscore
characters finds the closing marker exactly at the block's end. -/
theorem findCloseLen_of_clean (x rest : List Char) (hx : x ≠ [])
    (hdot : ∀ c ∈ x, isDotChar c = true) (hund : ∀ c ∈ x, c ≠ '_') :
    findCloseLen (x ++ (actionMarker ++ rest)) = some x.length := by
  induction x with
  | nil => exact absurd rfl hx
  | cons c x ih =>
    rcases x with _ | ⟨d, x'⟩
    · have hd : isDotChar c = true := hdot c (List.mem_cons_self c [])
      simp [findCloseLen, hd, marker_prefix_append rest]
    · have hd : isDotChar c = true := hdot c (List.mem_cons_self c (d :: x'))
      have hnd : d ≠ '_' :=
        hund d (List.mem_cons_of_mem c (List.mem_cons_self d x'))
      have hrec : findCloseLen ((d :: x') ++ (actionMarker ++ rest))
          = some (d :: x').length :=
        ih (by simp)
          (fun a ha => hdot a (List.mem_cons_of_mem c ha))
          (fun a ha => hund a (List.mem_cons_of_mem c ha))
      have hnp : actionMarker.isPrefixOf ((d :: x') ++ (actionMarker ++ rest))
          = false := by
        rw [List.cons_append]
        exact marker_not_prefix_of_cons _ hnd
      rw [List.cons_append]
      unfold findCloseLen
      rw [hd, if_pos rfl, hnp]
      simp only [List.cons_append] at hrec
      simp [hrec]

/-- A whole block match anchored at its opening marker has length
`|marker| + |content| + |marker|`. -/
theorem matchLenAt_block (x rest : List Char) (hx : x ≠ [])
    (hdot : ∀ c ∈ x, isDotChar c = true) (hund : ∀ c ∈ x, c ≠ '_') :
    matchLenAt (actionMarker ++ (x ++ (actionMarker ++ rest)))
      = some (actionMarker.length + x.length + actionMarker.length) := by
  unfold matchLenAt
  rw [marker_prefix_append (x ++ (actionMarker ++ rest)), if_pos rfl,
      List.drop_left, findCloseLen_of_clean x rest hx hdot hund]

/-- `removeFirstMatch` on `pre ++ marker ++ x ++ marker ++ rest`, with no
underscore in `pre` and a clean one-block content `x`, removes exactly the
first block and keeps everything else, in particular all of `rest`. -/
theorem removeFirstMatch_block (pre x rest : List Char)
    (hpre : ∀ c ∈ pre, c ≠ '_') (hx : x ≠ [])
    (hdot : ∀ c ∈ x, isDotChar c = true) (hund : ∀ c ∈ x, c ≠ '_') :
    removeFirstMatch (pre ++ (actionMarker ++ (x ++ (actionMarker ++ rest))))
      = some (pre ++ rest) := by
  induction pre with
  | nil =>
    simp only [List.nil_append]
    have hM : (actionMarker ++ (x ++ (actionMarker ++ rest)) : List Char)
        = '_' :: ("_ACTION_DATA__".data ++ (x ++ (actionMarker ++ rest))) := rfl
    rw [hM]
    unfold removeFirstMatch
    rw [← hM, matchLenAt_block x rest hx hdot hund]
    have hlen : (actionMarker ++ x ++ actionMarker : List Char).length
        = actionMarker.length + x.length + actionMarker.length := by
      simp [List.length_append, Nat.add_assoc]
    have hdrop : (actionMarker ++ (x ++ (actionMarker ++ rest)) : List Char).drop
        (actionMarker.length + x.length + actionMarker.length) = rest := by
      rw [show (actionMarker ++ (x ++ (actionMarker ++ rest)) : List Char)
            = (actionMarker ++ x ++ actionMarker) ++ rest by
            simp [List.append_assoc], ← hlen]
      exact List.drop_left _ _
    simp [hdrop]
  | cons c p ih =>
    have hc : c ≠ '_' := hpre c (List.mem_cons_self c p)
    have hrec := ih (fun a ha => hpre a (List.mem_cons_of_mem c ha))
    rw [List.cons_append]
    unfold removeFirstMatch
    rw [matchLenAt_cons_ne _ hc]
    simp [hrec]

/-- C10: when the response embeds more than one sentinel-delimited block,
only the first (leftmost, lazily shortest) block — both its marker tokens and
its content — is stripped from the displayed text; everything after it, in
particular any further sentinel-delimited blocks and any unpaired trailing
marker token, remains in the displayed text. -/
theorem stripActionData_strips_only_first (pre x rest : List Char)
    (hpre : ∀ c ∈ pre, c ≠ '_') (hx : x ≠ [])
    (hdot : ∀ c ∈ x, isDotChar c = true) (hund : ∀ c ∈ x, c ≠ '_') :
    stripActionData
        (String.mk (pre ++ (actionMarker ++ (x ++ (actionMarker ++ rest)))))
      = jsTrim (String.mk (pre ++ rest)) := by
  unfold stripActionData
  rw [show (String.mk (pre ++ (actionMarker ++ (x ++ (actionMarker ++ rest))))).data
        = pre ++ (actionMarker ++ (x ++ (actionMarker ++ rest))) from rfl,
      removeFirstMatch_block pre x rest hpre hx hdot hund]

/-- Witness for C10: a response with two blocks and a trailing unpaired
marker keeps the second block and the trailing marker. -/
theorem stripActionData_strips_only_first_witness :
    stripActionData (String.mk ("AB".data ++ (actionMarker ++ ("x".data
        ++ (actionMarker
            ++ "C__ACTION_DATA__y__ACTION_DATA__D__ACTION_DATA__".data)))))
      = jsTrim (String.mk ("AB".data
          ++ "C__ACTION_DATA__y__ACTION_DATA__D__ACTION_DATA__".data)) :=
  stripActionData_strips_only_first "AB".data "x".data
    "C__ACTION_DATA__y__ACTION_DATA__D__ACTION_DATA__".data
    (by decide) (by decide) (by decide) (by decide)
